import Mathlib

/-!
Verification of the auction-completion tracker in `src/content.js`.

The development shallowly embeds the pure core of the content script:
character-level models of the regular expressions it runs on DOM text,
the two context extractors (table shape and tab shape), the winners-map
scan, the completion/deduplication state machine around `checkTimer`,
the alert policy `shouldAlert`, and the output dispatch of
`showNotification`.  DOM access is modelled by feeding the functions the
text/width data the script would read from the document.
-/

namespace OpenDkp

/-- Character class of the JS regex `\d`. -/
def isDigitChar (c : Char) : Bool := decide ('0' ≤ c) && decide (c ≤ '9')

/-- Character class of the JS regex `\s` (the whitespace characters relevant
to this codebase: space, tab, LF, CR, VT, FF, NBSP). -/
def isJsSpace (c : Char) : Bool :=
  c = ' ' || c = '\t' || c = '\n' || c = '\x0d' || c = '\x0b' || c = '\x0c' || c = '\u00a0'

/-- Character class of the JS regex `[\s-]`. -/
def isSepChar (c : Char) : Bool := isJsSpace c || c = '-'

/-- Character class of the JS regex `.` without the `s` flag: any character
except a line terminator. -/
def isDotChar (c : Char) : Bool :=
  !(c = '\n' || c = '\x0d' || c = '\u2028' || c = '\u2029')

/-- Numeric value of a decimal digit character. -/
def digitVal (c : Char) : Nat := c.toNat - 48

/-- Value of a string of decimal digits, most significant first. -/
def natOfDigits (ds : List Char) : Nat := ds.foldl (fun a c => 10 * a + digitVal c) 0

/-- Model of `String.prototype.trim` on a character list. -/
def trimChars (cs : List Char) : List Char :=
  ((cs.dropWhile isJsSpace).reverse.dropWhile isJsSpace).reverse

/-- Model of `String.prototype.trim`. -/
def trimString (s : String) : String := String.mk (trimChars s.data)

/-- ASCII model of `String.prototype.toLowerCase` (all data handled by the
script is ASCII). -/
def lowerChar (c : Char) : Char :=
  if decide ('A' ≤ c) && decide (c ≤ 'Z') then Char.ofNat (c.toNat + 32) else c

/-- Lower-casing a whole string. -/
def lowerString (s : String) : String := String.mk (s.data.map lowerChar)

/-- JS truthiness of an optional string (`undefined`, `null` and `""` are
falsy). -/
def truthyStr : Option String → Bool
  | none => false
  | some s => !(s = "")

/-- JS truthiness of an optional number (`undefined`, `null`, `NaN` - all
modelled as `none` - and `0` are falsy). -/
def truthyInt : Option Int → Bool
  | none => false
  | some b => !(b = 0)

/-- JS truthiness of an optional natural number. -/
def truthyNat : Option Nat → Bool
  | none => false
  | some n => !(n = 0)

/-- Model of JS `parseInt` on a trimmed-or-not string: skip leading
whitespace, optional sign, then a non-empty run of decimal digits; `NaN`
(here `none`) otherwise. -/
def parseIntJS (s : String) : Option Int :=
  let cs := s.data.dropWhile isJsSpace
  match cs with
  | '-' :: rest =>
    let ds := rest.takeWhile isDigitChar
    if ds.isEmpty then none else some (-(natOfDigits ds : Int))
  | '+' :: rest =>
    let ds := rest.takeWhile isDigitChar
    if ds.isEmpty then none else some (natOfDigits ds : Int)
  | _ =>
    let ds := cs.takeWhile isDigitChar
    if ds.isEmpty then none else some (natOfDigits ds : Int)

/-- Model of `getWidthPercent`s regex `^(\d+(?:\.\d+)?)%$` applied to an
inline style width string, returning the parsed number as a rational
(content.js lines 946-959). -/
def parseWidthPercent (s : String) : Option ℚ :=
  let cs := s.data
  let ds := cs.takeWhile isDigitChar
  if ds.isEmpty then none else
  match cs.dropWhile isDigitChar with
  | ['%'] => some (natOfDigits ds : ℚ)
  | '.' :: rest2 =>
    let fs := rest2.takeWhile isDigitChar
    if fs.isEmpty then none else
    match rest2.dropWhile isDigitChar with
    | ['%'] => some ((natOfDigits ds : ℚ) + (natOfDigits fs : ℚ) / (10 : ℚ) ^ fs.length)
    | _ => none
  | _ => none

/-- Model of `getWidthPercent(element)`: the element argument is summarised
by its optional inline style width string; a missing element, missing style
or empty width string yields `null` (content.js lines 946-959). -/
def getWidthPercent : Option String → Option ℚ
  | none => none
  | some w => if w = "" then none else parseWidthPercent w

/-- Model of the item-name cleaning shared by content.js lines 2330-2341,
1763-1774 and 2658-2669: first try the regex `^\d+[\s-]+(.+)$` and replace
the string by the trimmed capture; otherwise try `^\d+(.+)$` the same way;
otherwise leave the string unchanged.  Regex backtracking is resolved
explicitly: the digit run and separator run are maximal, and the separator
run (resp. digit run) gives back exactly enough characters for the capture
to be non-empty; the capture of `.` cannot contain a line terminator. -/
def cleanLeadingBid (s : String) : String :=
  let cs := s.data
  let ds := cs.takeWhile isDigitChar
  if ds.isEmpty then s else
  let t := cs.dropWhile isDigitChar
  let m := (t.takeWhile isSepChar).length
  let j := min m (t.length - 1)
  if 1 ≤ j && (t.drop j).all isDotChar then
    trimString (String.mk (t.drop j))
  else
    let i := min ds.length (cs.length - 1)
    if 1 ≤ i && (cs.drop i).all isDotChar then trimString (String.mk (cs.drop i))
    else s

/-- Validity of the lazy head group of `^(.+?)\s*SEP\s*(\d+)$` for a given
separator occurrence: `before` is the text left of the separator.  The lazy
group must be a non-empty all-dot prefix of `before` whose remainder up to
the separator is all whitespace. -/
def lazyHeadValid (before : List Char) : Bool :=
  match before with
  | [] => false
  | b :: _ =>
    let core := (before.reverse.dropWhile isJsSpace).reverse
    if core.isEmpty then isDotChar b else core.all isDotChar

/-- The trimmed capture group 1 of `^(.+?)\s*SEP\s*(\d+)$` for a given
separator occurrence (laziness makes the group the prefix of `before` up to
the trailing whitespace run, and the source always applies `.trim()` to the
group). -/
def lazyHeadGroup (before : List Char) : String :=
  let core := (before.reverse.dropWhile isJsSpace).reverse
  if core.isEmpty then "" else trimString (String.mk core)

/-- Does the text right of a separator occurrence match `\s*(\d+)$`? -/
def lazyTailValid (rest : List Char) : Bool :=
  let ds := rest.dropWhile isJsSpace
  !ds.isEmpty && ds.all isDigitChar

/-- Scan for the leftmost separator occurrence that completes a match of
`^(.+?)\s*SEP\s*(\d+)$`; `seen` holds the characters already passed, in
reverse. -/
def lazyHeadAux (sep : Char) : List Char → List Char → Option (String × Nat)
  | _, [] => none
  | seen, c :: rest =>
    if c = sep && lazyTailValid rest && lazyHeadValid seen.reverse then
      some (lazyHeadGroup seen.reverse, natOfDigits (rest.dropWhile isJsSpace))
    else lazyHeadAux sep (c :: seen) rest

/-- Model of `s.match(/^(.+?)\s*SEP\s*(\d+)$/)` returning the trimmed name
group and the numeric group.  With `SEP = '-'` this is the winner/bid
pattern of content.js lines 1742 and 1935; with `SEP = 'x'` it is the
item/quantity pattern of line 1757. -/
def matchLazyHead (sep : Char) (s : String) : Option (String × Nat) :=
  lazyHeadAux sep [] s.data

/-- Model of the table-shape quantity match `itemText.match(/x\s*(\d+)$/)`
together with the corresponding replace of that suffix by the empty
string: returns the
quantity and the characters left of the stripped suffix (content.js lines
2323-2325). -/
def tableQuantitySplit (cs : List Char) : Option (Nat × List Char) :=
  let r := cs.reverse
  let dsr := r.takeWhile isDigitChar
  if dsr.isEmpty then none else
  match (r.dropWhile isDigitChar).dropWhile isJsSpace with
  | 'x' :: r3 => some (natOfDigits dsr.reverse, (r3.dropWhile isJsSpace).reverse)
  | _ => none

/-- The table-shape item name and quantity: trim the raw cell text, strip
the `x N` suffix (defaulting the quantity to 1), then apply the leading
bid-amount cleaning (content.js lines 2322-2341). -/
def tableItemQuantity (rawItemText : String) : String × Nat :=
  let itemText := trimChars rawItemText.data
  match tableQuantitySplit itemText with
  | some (q, rest) => (cleanLeadingBid (trimString (String.mk rest)), q)
  | none => (cleanLeadingBid (String.mk itemText), 1)

/-- Characters after the first dash, or the whole list when there is no
dash: model of `n.substring(n.indexOf('-') + 1)`. -/
def afterFirstDash (cs : List Char) : List Char :=
  match cs.dropWhile (fun c => !(c = '-')) with
  | [] => cs
  | _ :: t => t

/-- Does string `s` start with string `p`? -/
def beginsWithStr (s p : String) : Bool := p.data.isPrefixOf s.data

/-- Model of the final winner-name sanitisation applied to the item name in
both extractors (content.js lines 2253-2259 and 2449-2455): when the item
name starts with the lower-cased winner followed by ` -`, keep only the
trimmed text after the first dash. -/
def sanitizeWinnerItem (winner : Option String) (itemName : Option String) : Option String :=
  match itemName, winner with
  | some n0, some w0 =>
    if n0 = "" || w0 = "" then itemName else
    let w := lowerString (trimString w0)
    let n := trimString n0
    if beginsWithStr (lowerString n) (w ++ " -") then
      some (trimString (String.mk (afterFirstDash n.data)))
    else some n0
  | _, _ => itemName

/-- One bidder entry `{winner, bid}` as built by the extractors. -/
structure Bidder where
  winner : String
  bid : Option Int
deriving DecidableEq

/-- The sort key `(w.bid || 0)` used by the multi-item winner sort. -/
def bidKey (w : Bidder) : Int := w.bid.getD 0

/-- Stable descending insertion, matching the stable JS
`sort((a, b) => (b.bid || 0) - (a.bid || 0))`. -/
def insertDesc (a : Bidder) : List Bidder → List Bidder
  | [] => [a]
  | b :: t => if bidKey a < bidKey b then b :: insertDesc a t else a :: b :: t

/-- Stable descending sort by bid. -/
def sortBiddersDesc : List Bidder → List Bidder
  | [] => []
  | a :: t => insertDesc a (sortBiddersDesc t)

/-- Model of `Math.max(...rollOffWinners.map(w => w.bid || 0))` for a
non-empty list (the source only evaluates it on non-empty lists). -/
def maxBidVal : List Bidder → Int
  | [] => 0
  | w :: t => t.foldl (fun m x => max m (bidKey x)) (bidKey w)

/-- The parsed auction context produced by the extractors.  Optional fields
model JS `undefined`/`null`; note that an empty array is truthy in JS, so
`rollOffWinners = some []` (table shape) and `rollOffWinners = none`
(tab shape with no bidders) are distinct, as in the source. -/
structure Ctx where
  winner : Option String
  bidAmount : Option Int
  itemName : Option String
  quantity : Option Nat
  noBid : Bool
  rollOffWinners : Option (List Bidder)
  rollOffBid : Option Int
  isRollOff : Bool
  multipleWinners : Bool
  actualWinners : Option (List Bidder)
  isTableStructure : Bool
deriving DecidableEq

/-- Model of the winner-resolution block shared verbatim by the two
extractors (content.js lines 2380-2407 and 2206-2233): roll-off keeps the
whole bidder list; multi-item auctions take the top `quantity` bidders
sorted by bid descending; single-item auctions keep the bidders at the
highest bid, truncated to one; otherwise the headline winner alone. -/
def computeActualWinners (isRollOff : Bool) (rollOffWinners : List Bidder)
    (bidAmount : Option Int) (quantity : Option Nat) (winner : Option String) :
    List Bidder :=
  if isRollOff then rollOffWinners
  else if decide (0 < rollOffWinners.length) && truthyInt bidAmount then
    if truthyNat quantity && decide (1 < quantity.getD 0) &&
        decide (0 < rollOffWinners.length) then
      (sortBiddersDesc rollOffWinners).take (quantity.getD 0)
    else
      let highestBid := maxBidVal rollOffWinners
      let aw := rollOffWinners.filter (fun w => decide (w.bid = some highestBid))
      if decide (1 < aw.length) && (!truthyNat quantity || quantity = some 1) then
        aw.take 1
      else aw
  else if truthyStr winner then [⟨(winner.getD ""), bidAmount⟩]
  else []

/-- One sibling row of the table shape, summarised by the trimmed text of
its winner link (cells column 1) and of its bid cell (column 3), when
present. -/
structure TableRow where
  rowWinner : Option String
  rowBidText : Option String
deriving DecidableEq

/-- The DOM data read by `extractTableContext`: the winner cell text, the
raw item cell text, the bid cell text, and all sibling rows (including the
row itself). -/
structure TableInput where
  winner : Option String
  itemText : String
  bidText : Option String
  rows : List TableRow
deriving DecidableEq

/-- Model of `bidText ? parseInt(bidText) : null` (content.js line 2345). -/
def tableBidAmount (inp : TableInput) : Option Int :=
  match inp.bidText with
  | none => none
  | some s => if s = "" then none else parseIntJS s

/-- Model of `parseInt(rowBid)` for one sibling row. -/
def rowBidOf (r : TableRow) : Option Int :=
  match r.rowBidText with
  | none => none
  | some s => parseIntJS s

/-- Model of the sibling-row scan of content.js lines 2352-2365: when the
headline bid is truthy, keep every row whose winner link is non-empty and
whose parsed bid is strictly equal to the headline bid. -/
def tableRollOffWinners (inp : TableInput) : List Bidder :=
  match tableBidAmount inp with
  | none => []
  | some b =>
    if b = 0 then [] else
    inp.rows.filterMap (fun r =>
      match r.rowWinner with
      | none => none
      | some w =>
        if w = "" then none
        else if rowBidOf r = some b then some ⟨w, some b⟩ else none)

/-- The table-shape quantity. -/
def tableQuantityOf (inp : TableInput) : Nat := (tableItemQuantity inp.itemText).2

/-- The table-shape item name before the winner sanitisation. -/
def tableItemName0 (inp : TableInput) : String := (tableItemQuantity inp.itemText).1

/-- Model of content.js lines 2362-2364: the roll-off bid is the headline
bid exactly when more than one row matched it. -/
def tableRollOffBid (inp : TableInput) : Option Int :=
  if 1 < (tableRollOffWinners inp).length then tableBidAmount inp else none

/-- Model of content.js line 2373:
`rollOffWinners.length > 1 && rollOffBid !== null && rollOffWinners.length > (quantity || 1)`. -/
def tableIsRollOff (inp : TableInput) : Bool :=
  let l := tableRollOffWinners inp
  let q := tableQuantityOf inp
  decide (1 < l.length) && (tableRollOffBid inp).isSome &&
    decide ((if q = 0 then 1 else q) < l.length)

/-- Model of `extractTableContext` (content.js lines 2294-2464) from the
cell data of the row containing the timer. -/
def extractTableContext (inp : TableInput) : Ctx :=
  let ron := tableRollOffWinners inp
  let q := tableQuantityOf inp
  let aw := computeActualWinners (tableIsRollOff inp) ron (tableBidAmount inp)
      (some q) inp.winner
  { winner := inp.winner
    bidAmount := tableBidAmount inp
    itemName := sanitizeWinnerItem inp.winner (some (tableItemName0 inp))
    quantity := some q
    noBid := !truthyInt (tableBidAmount inp)
    rollOffWinners := some ron
    rollOffBid := tableRollOffBid inp
    isRollOff := tableIsRollOff inp
    multipleWinners := decide (1 < aw.length)
    actualWinners := if 0 < aw.length then some aw else none
    isTableStructure := true }

/-- The DOM data read by `extractTimerContext` for a tab-shape auction whose
tab panel contains no table element: the trimmed text of the `.tab-offset`
winner div (the source substitutes the empty string when the div is
missing) and the
trimmed texts of the container divs in document order.  Because the table
strategies of content.js lines 1962-2191 only inspect table elements inside
the tab panel, they leave the state unchanged on such a DOM, so this input
determines the extracted context. -/
structure TimerInput where
  winnerText : String
  divTexts : List String
deriving DecidableEq

/-- Model of the winner/bid parse of content.js lines 1739-1747. -/
def timerWinnerBid (inp : TimerInput) : Option String × Option Int :=
  if inp.winnerText = "" then (none, none)
  else
    match matchLazyHead '-' inp.winnerText with
    | some (w, b) => (some w, some (b : Int))
    | none => (none, none)

/-- Splitting a character list at commas, keeping empty parts: model of
`String.prototype.split(',')`. -/
def splitCommaAux : List Char → List Char → List (List Char)
  | acc, [] => [acc.reverse]
  | acc, c :: rest =>
    if c = ',' then acc.reverse :: splitCommaAux [] rest
    else splitCommaAux (c :: acc) rest

/-- Model of `s.split(',')`. -/
def splitCommas (s : String) : List String :=
  (splitCommaAux [] s.data).map String.mk

/-- Does the string contain the character? (model of `String.prototype.includes`
with a single-character needle). -/
def containsChar (s : String) (c : Char) : Bool := s.data.any (fun d => d = c)

/-- Model of the item-name/quantity loop of content.js lines 1754-1797: the
first div matching `^(.+?)\s*x\s*(\d+)$` wins (with leading-bid cleaning)
and stops the loop; otherwise a div without dashes or an `x`, longer than 3
characters, provides a fallback name with quantity 1 and the loop goes on. -/
def timerItemScan : List String → Option String × Option Nat → Option String × Option Nat
  | [], acc => acc
  | text :: rest, acc =>
    match matchLazyHead 'x' text with
    | some (nm, q) => (some (cleanLeadingBid nm), some q)
    | none =>
      if !(text = "") && !(containsChar text '-') &&
          !(containsChar text 'x') && decide (3 < text.length) then
        timerItemScan rest (some (cleanLeadingBid text), some 1)
      else timerItemScan rest acc

/-- Model of the comma-separated winner parse of content.js lines
1932-1945. -/
def timerParsedWinners (inp : TimerInput) (bidAmount : Option Int) : List Bidder :=
  ((splitCommas inp.winnerText).map trimString).filterMap (fun part =>
    match matchLazyHead '-' part with
    | some (w, b) => some ⟨w, some (b : Int)⟩
    | none =>
      if truthyInt bidAmount && !(trimString part = "") then
        some ⟨trimString part, bidAmount⟩
      else none)

/-- Model of strategy 1 of the tab-shape roll-off resolution (content.js
lines 1926-1960): the bidder list and roll-off bid after the comma branch.
Strategies 2-4 (lines 1962-2191) only read table elements of the tab panel
and therefore change nothing on the table-free DOMs covered by
`TimerInput`. -/
def timerRollOffState (inp : TimerInput) : List Bidder × Option Int :=
  let bidAmount := (timerWinnerBid inp).2
  if !(inp.winnerText = "") && containsChar inp.winnerText ',' then
    let pw := timerParsedWinners inp bidAmount
    if 1 < pw.length then
      match pw with
      | [] => ([], none)
      | p :: _ =>
        if pw.all (fun x => x.bid = p.bid) &&
            (match p.bid with | some b => decide (0 < b) | none => false) then
          (pw, p.bid)
        else (pw, none)
    else ([], none)
  else ([], none)

/-- Model of `extractTimerContext` (content.js lines 1722-2288) on a
tab-shape DOM whose tab panel contains no tables. -/
def extractTimerContextNT (inp : TimerInput) : Ctx :=
  let wb := timerWinnerBid inp
  let iq := timerItemScan inp.divTexts (none, none)
  let ro := timerRollOffState inp
  let isro := decide (1 < ro.1.length) && ro.2.isSome &&
    decide ((match iq.2 with | some q => if q = 0 then 1 else q | none => 1) < ro.1.length)
  let aw := computeActualWinners isro ro.1 wb.2 iq.2 wb.1
  { winner := wb.1
    bidAmount := wb.2
    itemName := sanitizeWinnerItem wb.1 iq.1
    quantity := iq.2
    noBid := !truthyInt wb.2
    rollOffWinners := if 0 < ro.1.length then some ro.1 else none
    rollOffBid := ro.2
    isRollOff := isro
    multipleWinners := decide (1 < aw.length)
    actualWinners := if 0 < aw.length then some aw else none
    isTableStructure := false }

/-- First value stored under a key in an association list (model of
`Map.prototype.get`). -/
def assocFind {β : Type} (m : List (String × β)) (k : String) : Option β :=
  match m with
  | [] => none
  | (k0, v0) :: t => if k0 = k then some v0 else assocFind t k

/-- Model of `Map.prototype.set`: replace the first entry with the key in
place, or append a new entry at the end (JS maps preserve insertion
order). -/
def assocSet {β : Type} (m : List (String × β)) (k : String) (v : β) :
    List (String × β) :=
  match m with
  | [] => [(k, v)]
  | (k0, v0) :: t => if k0 = k then (k, v) :: t else (k0, v0) :: assocSet t k v

/-- Model of one update of the winners map in `extractWinnersFromTable`
(content.js lines 1888-1915): substitute the default bid for a falsy row
bid, then `winnersMap.set` under the condition
`!existing || !rowBid || (rowBid && (!existing.bid || rowBid > existing.bid))`. -/
def winnersMapStep (defaultBid : Option Int) (m : List (String × Option Int))
    (name : String) (rowBid0 : Option Int) : List (String × Option Int) :=
  let rowBid := if !truthyInt rowBid0 && truthyInt defaultBid then defaultBid else rowBid0
  let cond :=
    match assocFind m name with
    | none => true
    | some ex =>
      !truthyInt rowBid ||
        (truthyInt rowBid &&
          (!truthyInt ex ||
            (match rowBid, ex with
             | some r, some e => decide (e < r)
             | _, _ => false)))
  if cond then assocSet m name rowBid else m

/-- Model of the row scan of `extractWinnersFromTable` (content.js lines
1800-1921): each input pair is the validated name and parsed bid of one
non-header row as resolved by the cell-selection strategies of lines
1812-1907; the scan folds them into the name-to-bid map. -/
def extractWinnersFromTable (defaultBid : Option Int)
    (rows : List (String × Option Int)) : List (String × Option Int) :=
  rows.foldl (fun m r => winnersMapStep defaultBid m r.1 r.2) []

/-- Decimal digits of a positive natural number, fuel-driven so that it
reduces inside the kernel. -/
def natDigitsAux : Nat → Nat → List Char → List Char
  | 0, _, acc => acc
  | fuel + 1, n, acc =>
    if n = 0 then acc
    else natDigitsAux fuel (n / 10) (Char.ofNat (48 + n % 10) :: acc)

/-- Decimal rendering of a natural number. -/
def natToString (n : Nat) : String :=
  if n = 0 then "0" else String.mk (natDigitsAux (n + 1) n [])

/-- Decimal rendering of an integer, as JS string interpolation prints a
number. -/
def intToString : Int → String
  | Int.ofNat n => natToString n
  | Int.negSucc m => "-" ++ natToString (m + 1)

/-- Model of `buildCompletionSignature` (content.js lines 176-181):
lower-cased trimmed item and winner joined with the bid (0 when falsy). -/
def buildCompletionSignature (ctx : Option Ctx) : String :=
  let item := trimString (lowerString ((ctx.bind Ctx.itemName).getD ""))
  let winner := trimString (lowerString ((ctx.bind Ctx.winner).getD ""))
  let bid := (ctx.bind Ctx.bidAmount).getD 0
  item ++ "|" ++ winner ++ "|" ++ intToString bid

/-- The suppression window `COMPLETED_SUPPRESS_MS` of content.js line 174:
two minutes. -/
def COMPLETED_SUPPRESS_MS : Nat := 2 * 60 * 1000

/-- Model of `isRecentlyCompleted` (content.js lines 183-192); a stored
timestamp of 0 is falsy in JS and treated as absent. -/
def isRecentlyCompleted (recent : List (String × Nat)) (nowMs : Nat) (sig : String) :
    Bool :=
  match assocFind recent sig with
  | none => false
  | some ts => if ts = 0 then false else decide (nowMs - ts < COMPLETED_SUPPRESS_MS)

/-- Model of `recordCompleted` (content.js lines 194-203): store the
signature with the current time, then prune entries older than the window
once the map exceeds 200 entries. -/
def recordCompleted (recent : List (String × Nat)) (nowMs : Nat) (sig : String) :
    List (String × Nat) :=
  let m := assocSet recent sig nowMs
  if 200 < m.length then
    m.filter (fun p => decide (nowMs - p.2 ≤ COMPLETED_SUPPRESS_MS))
  else m

/-- The settings fields consulted by the alert policy and the output
dispatch. -/
structure Settings where
  SMART_BIDDING : Bool
  SOUND_PROFILE : String
  QUIET_HOURS : Bool
  QUIET_START : String
  QUIET_END : String
  DISABLE_VISUALS : Bool
  BROWSER_NOTIFICATIONS : Bool
  FLASH_SCREEN : Bool
  ENABLE_TTS : Bool
deriving DecidableEq

/-- Model of the colon removal `replace` applied to a quiet-hours bound
such as `22:00`: remove the first colon. -/
def removeFirstColonAux : List Char → List Char
  | [] => []
  | c :: t => if c = ':' then t else c :: removeFirstColonAux t

/-- Model of the colon removal applied to the quiet-hours bounds. -/
def removeFirstColon (s : String) : String := String.mk (removeFirstColonAux s.data)

/-- Model of `isQuietHours` (content.js lines 1202-1217); `currentTime` is
`hours * 100 + minutes`.  When either bound parses to `NaN`, every JS
comparison involving it is false, so both branches return false. -/
def isQuietHours (st : Settings) (currentTime : Int) : Bool :=
  if !st.QUIET_HOURS then false else
  match parseIntJS (removeFirstColon st.QUIET_START),
      parseIntJS (removeFirstColon st.QUIET_END) with
  | some s, some e =>
    if e < s then decide (s ≤ currentTime) || decide (currentTime ≤ e)
    else decide (s ≤ currentTime) && decide (currentTime ≤ e)
  | _, _ => false

/-- Model of `shouldAlert` (content.js lines 1074-1129).  The `quiet` flag
is the value of `isQuietHours()` and `userBids` the value of
`isUserBidding(context)`, a DOM scan summarised here by its result. -/
def shouldAlert (st : Settings) (quiet : Bool) (userBids : Bool) : Option Ctx → Bool
  | none => false
  | some c =>
    if c.noBid then false
    else if st.SMART_BIDDING && st.SOUND_PROFILE = "raider" && !userBids then false
    else if quiet then !st.DISABLE_VISUALS
    else if truthyStr c.winner && !c.rollOffWinners.isSome then true
    else if (match c.quantity with | some q => decide (1 < q) | none => false) &&
        c.rollOffWinners.isSome &&
        (match c.rollOffWinners, c.quantity with
         | some l, some q => decide (q ≤ l.length)
         | _, _ => false) then true
    else if c.isRollOff && c.rollOffWinners.isSome &&
        (match c.rollOffWinners with
         | some l =>
           decide ((match c.quantity with
                    | some q => if q = 0 then 1 else q
                    | none => 1) < l.length)
         | none => false) then true
    else if (match c.bidAmount with | some b => decide (0 < b) | none => false) then true
    else false

/-- The per-page mutable state of the tracker (content.js lines 54-174):
timer elements are identified by opaque numeric ids. -/
structure TrackerState where
  alertedTimers : List Nat
  timersWithProgress : List Nat
  allTimers : List Nat
  recentCompletedMap : List (String × Nat)
  navigationProtectionActive : Bool
  initializationComplete : Bool
deriving DecidableEq

/-- The ambient data a check reads: settings, the wall clock, and per-timer
results of the DOM reads (`getWidthPercent` and the composite
`extractTableContext(el) || extractTimerContext(el)`). -/
structure Env where
  settings : Settings
  currentTime : Int
  nowMs : Nat
  userBids : Bool
  width : Nat → Option ℚ
  context : Nat → Option Ctx

/-- The externally visible actions of one `checkTimer` call, in program
order: adding the element to `alertedTimers`, starting the output dispatch
(`showNotification`, which plays the sound, speaks and notifies), and
recording the completion signature. -/
inductive Event where
  | markAlerted (t : Nat)
  | dispatchOutput (t : Nat) (sig : String)
  | recordSig (sig : String)
deriving DecidableEq

/-- Which exit a `checkTimer` call took. -/
inductive Outcome where
  | notInit
  | navProtected
  | alreadyAlerted
  | progressSuppressed
  | noContext
  | dedupSuppressed
  | alertFired
  | policyDeclined
  | notCompleted
deriving DecidableEq

/-- Model of content.js lines 999-1003: remember the timer in
`timersWithProgress` when its width reads above 1. -/
def noteProgress (env : Env) (s : TrackerState) (t : Nat) : TrackerState :=
  match env.width t with
  | some w =>
    if 1 < w then { s with timersWithProgress := t :: s.timersWithProgress } else s
  | none => s

/-- Model of `checkTimer` (content.js lines 978-1069): the next state, the
exit taken, and the emitted events in program order. -/
def checkTimer (env : Env) (s : TrackerState) (t : Nat) :
    TrackerState × Outcome × List Event :=
  if !s.initializationComplete then (s, .notInit, [])
  else if s.navigationProtectionActive then (s, .navProtected, [])
  else if s.alertedTimers.contains t then (s, .alreadyAlerted, [])
  else
    let s1 := noteProgress env s t
    match env.width t with
    | none => (s1, .notCompleted, [])
    | some w =>
      if w ≤ 0 then
        let hasSeenProgress := s1.timersWithProgress.contains t
        let firstCheck := !hasSeenProgress && !(s1.alertedTimers.contains t)
        if !hasSeenProgress && !firstCheck then
          ({ s1 with alertedTimers := t :: s1.alertedTimers }, .progressSuppressed,
            [.markAlerted t])
        else
          let ctxOpt := env.context t
          if !(match ctxOpt with | none => false | some c => truthyStr c.itemName) then
            ({ s1 with alertedTimers := t :: s1.alertedTimers }, .noContext,
              [.markAlerted t])
          else
            let sig := buildCompletionSignature ctxOpt
            let wasRecentlyCompleted :=
              isRecentlyCompleted s1.recentCompletedMap env.nowMs sig
            let hasBeenAlerted := s1.alertedTimers.contains t
            if wasRecentlyCompleted && hasBeenAlerted then (s1, .dedupSuppressed, [])
            else
              let s2 := { s1 with alertedTimers := t :: s1.alertedTimers }
              if shouldAlert env.settings (isQuietHours env.settings env.currentTime)
                  env.userBids ctxOpt then
                ({ s2 with
                    recentCompletedMap := recordCompleted s2.recentCompletedMap env.nowMs sig },
                  .alertFired, [.markAlerted t, .dispatchOutput t sig, .recordSig sig])
              else (s2, .policyDeclined, [.markAlerted t])
      else (s1, .notCompleted, [])

/-- A sequence of `checkTimer` calls (arbitrary interleaving of timers and
environments), together with the trace of emitted events tagged by the
checked timer. -/
def runChecks : List (Env × Nat) → TrackerState → TrackerState × List (Nat × List Event)
  | [], s => (s, [])
  | (e, t) :: rest, s =>
    let r := checkTimer e s t
    let tail := runChecks rest r.1
    (tail.1, (t, r.2.2) :: tail.2)

/-- Model of the discovery of one new timer by the polling rescan
(content.js lines 1330-1346): register it, and during the navigation
protection window pre-mark it as alerted when its width is already at or
below 0.  `maybeAnnounceNewAuction` returns without speaking for a width
at or below 0 (line 101), so no output is emitted here. -/
def discoverTimer (env : Env) (s : TrackerState) (t : Nat) : TrackerState :=
  if s.allTimers.contains t then s
  else
    let s1 := { s with allTimers := t :: s.allTimers }
    match env.width t with
    | some w =>
      if s1.navigationProtectionActive && w ≤ 0 then
        { s1 with alertedTimers := t :: s1.alertedTimers }
      else s1
    | none => s1

/-- Model of the initial-load marking of one already-completed timer
(content.js lines 1447-1463): add it to `alertedTimers` and record its
completion signature. -/
def initializeMarkCompleted (env : Env) (s : TrackerState) (t : Nat) : TrackerState :=
  match env.width t with
  | some w =>
    if w ≤ 0 then
      { s with
        alertedTimers := t :: s.alertedTimers,
        recentCompletedMap :=
          recordCompleted s.recentCompletedMap env.nowMs
            (buildCompletionSignature (env.context t)) }
    else s
  | none => s

/-- The one-way output effects of `showNotification`. -/
inductive Effect where
  | browserNote
  | consoleVisual
  | flashVisual
  | soundChime
  | ttsSpeech
deriving DecidableEq

/-- Model of `playChime` (content.js lines 325-348): silent during quiet
hours, otherwise some sound (named MP3 or beep fallback) plays. -/
def playChimeEffects (quiet : Bool) : List Effect :=
  if quiet then [] else [Effect.soundChime]

/-- Model of the dispatch order of `showNotification` (content.js lines
2647-2798): browser notification, console message and screen flash subject
to their toggles and `DISABLE_VISUALS`; then an early return during quiet
hours, otherwise the chime and the scheduled TTS (which itself returns
early unless `ENABLE_TTS`). -/
def showNotificationEffects (st : Settings) (quiet : Bool)
    (permissionGranted : Bool) : Option Ctx → List Effect
  | none => []
  | some _ =>
    (if st.BROWSER_NOTIFICATIONS && !st.DISABLE_VISUALS && permissionGranted then
       [Effect.browserNote] else [])
    ++ (if !st.DISABLE_VISUALS then [Effect.consoleVisual] else [])
    ++ (if st.FLASH_SCREEN && !st.DISABLE_VISUALS then [Effect.flashVisual] else [])
    ++ (if quiet then [] else
          playChimeEffects quiet ++ (if st.ENABLE_TTS then [Effect.ttsSpeech] else []))

/-- The number of entries in the `actualWinners` field, 0 when the field is
absent. -/
def awLength (c : Ctx) : Nat :=
  match c.actualWinners with
  | some l => l.length
  | none => 0

/-- Spec-side definition, following the words of the specification: the
bidders sharing the top bid of a bidder list (the set whose size the spec
compares against the quantity). -/
def specTopBidSharers (bidders : List Bidder) : List Bidder :=
  bidders.filter (fun w => decide (bidKey w = maxBidVal bidders))

/-- Spec-side definition, following the words of the specification: does
the string begin with a numeric token followed by whitespace or a dash? -/
def beginsWithNumericToken (s : String) : Bool :=
  let ds := s.data.takeWhile isDigitChar
  !ds.isEmpty &&
    (match s.data.dropWhile isDigitChar with
     | c :: _ => isSepChar c
     | [] => false)

/-- Spec-side definition: does the string begin with a decimal digit? -/
def beginsWithDigit (s : String) : Bool :=
  match s.data.head? with
  | some c => isDigitChar c
  | none => false

/-- Concrete tab-shape input for claim C4: three comma-separated bidders of
which two share the top bid 1000 while the headline parse yields bid 1. -/
def tiC4 : TimerInput :=
  { winnerText := "Bob - 1000, Sue - 1000, Amy - 1", divTexts := ["Sword x 1"] }

/-- Concrete tab-shape input for claim C5: two distinct bidders at bid 0 on
a two-item auction. -/
def tiC5 : TimerInput :=
  { winnerText := "Bob - 0, Sue - 0", divTexts := ["Foo x 2"] }

/-- Concrete table-shape input: the roll-off scenario rows of the spec with
quantity 1. -/
def tblRollOffQ1 : TableInput :=
  { winner := some "Bob", itemText := "Sword x 1", bidText := some "1000",
    rows := [ { rowWinner := some "Bob", rowBidText := some "1000" },
              { rowWinner := some "Sue", rowBidText := some "1000" },
              { rowWinner := some "Amy", rowBidText := some "800" } ] }

/-- Concrete table-shape input: the same rows with quantity 2. -/
def tblRollOffQ2 : TableInput :=
  { winner := some "Bob", itemText := "Sword x 2", bidText := some "1000",
    rows := [ { rowWinner := some "Bob", rowBidText := some "1000" },
              { rowWinner := some "Sue", rowBidText := some "1000" },
              { rowWinner := some "Amy", rowBidText := some "800" } ] }

/-- Concrete table-shape input for the item-cleaning example of claim C7
(the apostrophe of the original item name is immaterial to the
character classes involved and omitted). -/
def tblC7 : TableInput :=
  { winner := some "Bob", itemText := "150 Yelinaks Talisman x 1",
    bidText := some "150", rows := [] }

/-- Concrete table-shape input for the claim C7 counterexample: a stacked
numeric prefix. -/
def tblC7x : TableInput :=
  { winner := some "Bob", itemText := "100 200 Sword x 1",
    bidText := some "100", rows := [] }

/-- A settings valuation with everything quiet-hours-related off, used by
the state-machine witnesses. -/
def settingsPlain : Settings :=
  { SMART_BIDDING := false, SOUND_PROFILE := "raidleader", QUIET_HOURS := false,
    QUIET_START := "22:00", QUIET_END := "08:00", DISABLE_VISUALS := false,
    BROWSER_NOTIFICATIONS := true, FLASH_SCREEN := true, ENABLE_TTS := false }

/-- The same settings with quiet hours enabled (22:00 to 08:00). -/
def settingsQuiet : Settings :=
  { settingsPlain with QUIET_HOURS := true }

/-- A context with a clear single winner, used by the state-machine
witnesses. -/
def ctxClearWinner : Ctx :=
  { winner := some "bob", bidAmount := some 100, itemName := some "sword",
    quantity := some 1, noBid := false, rollOffWinners := none, rollOffBid := none,
    isRollOff := false, multipleWinners := false, actualWinners := none,
    isTableStructure := false }

/-- Environment for the claim C1 witness: every timer reads width 0 and
extracts the clear-winner context. -/
def envC1 : Env :=
  { settings := settingsPlain, currentTime := 1200, nowMs := 5000,
    userBids := false, width := fun _ => some 0, context := fun _ => some ctxClearWinner }

/-- A fresh tracker state whose polling has started. -/
def stateFresh : TrackerState :=
  { alertedTimers := [], timersWithProgress := [], allTimers := [7],
    recentCompletedMap := [], navigationProtectionActive := false,
    initializationComplete := true }

/-- A tracker state in which timer 7 is already alerted. -/
def stateAlerted7 : TrackerState :=
  { alertedTimers := [7], timersWithProgress := [], allTimers := [7],
    recentCompletedMap := [], navigationProtectionActive := false,
    initializationComplete := true }

/-- Environment for the claim C2 witness: the clear-winner completion
signature is already recorded 1 second ago, well inside the 2-minute
window. -/
def envC2 : Env :=
  { settings := settingsPlain, currentTime := 1200, nowMs := 5000,
    userBids := false, width := fun _ => some 0,
    context := fun _ => some ctxClearWinner }

/-- A fresh tracker state that has recently recorded the clear-winner
signature. -/
def stateRecentSig : TrackerState :=
  { alertedTimers := [], timersWithProgress := [], allTimers := [5],
    recentCompletedMap := [("sword|bob|100", 4000)],
    navigationProtectionActive := false, initializationComplete := true }

/-- Environment for the claim C3 artefacts: width 0 everywhere, protection
window active. -/
def envC3 : Env :=
  { settings := settingsPlain, currentTime := 1200, nowMs := 5000,
    userBids := false, width := fun _ => some 0,
    context := fun _ => some ctxClearWinner }

/-- A tracker state inside the navigation protection window with no timers
registered yet. -/
def stateProtected : TrackerState :=
  { alertedTimers := [], timersWithProgress := [], allTimers := [],
    recentCompletedMap := [], navigationProtectionActive := true,
    initializationComplete := true }

lemma parseWidthPercent_nonneg (s : String) (w : ℚ)
    (h : parseWidthPercent s = some w) : 0 ≤ w := by
  simp only [parseWidthPercent] at h
  split at h
  · exact absurd h (by simp)
  · split at h
    · rw [Option.some_inj] at h
      subst h
      positivity
    · split at h
      · exact absurd h (by simp)
      · split at h
        · rw [Option.some_inj] at h
          subst h
          positivity
        · exact absurd h (by simp)
    · exact absurd h (by simp)

/-- Claim C10: the width parser is total and never negative: whenever
`getWidthPercent` returns a number it is non-negative, so the completion
test `width <= 0` can only succeed at exactly 0.  When the style string is
absent or does not match `^(\d+(?:\.\d+)?)%$` the function returns `none`
by construction. -/
theorem c10_width_nonneg (sty : Option String) (w : ℚ)
    (h : getWidthPercent sty = some w) : 0 ≤ w ∧ (w ≤ 0 → w = 0) := by
  have h0 : 0 ≤ w := by
    match sty with
    | none => exact absurd h (by simp [getWidthPercent])
    | some s =>
      simp only [getWidthPercent] at h
      split at h
      · exact absurd h (by simp)
      · exact parseWidthPercent_nonneg s w h
  exact ⟨h0, fun hle => le_antisymm hle h0⟩

/-- Witness for claim C10 at the concrete style string `"50%"`. -/
theorem c10_witness : (0 : ℚ) ≤ 50 ∧ ((50 : ℚ) ≤ 0 → (50 : ℚ) = 0) :=
  c10_width_nonneg (some "50%") 50 (by decide)

/-- Claim C8 (amended): the item-name cleaning is the identity on every
string that does not begin with a decimal digit; it is not idempotent in
general (see the counterexample). -/
theorem c8_clean_fixed_on_nondigit (s : String) (h : beginsWithDigit s = false) :
    cleanLeadingBid s = s := by
  obtain ⟨cs⟩ := s
  match cs with
  | [] => rfl
  | c :: t =>
    simp only [beginsWithDigit, List.head?] at h
    simp [cleanLeadingBid, List.takeWhile_cons, h]

/-- Witness for claim C8 at the already-clean item name `"Sword"`. -/
theorem c8_witness : cleanLeadingBid "Sword" = "Sword" :=
  c8_clean_fixed_on_nondigit "Sword" (by decide)

/-- Counterexample to claim C8 as stated: cleaning is not idempotent; the
cleaned name `"200 Sword"` of `"100 200 Sword"` cleans again to
`"Sword"`. -/
theorem c8_counterexample :
    cleanLeadingBid (cleanLeadingBid "100 200 Sword") ≠
      cleanLeadingBid "100 200 Sword" := by decide

/-- Claim C6: evaluation of the winners-map scan at the failing input.  Row
1 records Bob at bid 100; row 2 has no parseable bid and no default bid is
available, yet the `!rowBid` disjunct of content.js line 1912 lets it
overwrite the entry, so the final map holds a null bid for Bob instead of
the highest observed bid 100 - contradicting the comment directly above
the condition (`only update if this bid is higher`). -/
theorem c6_missing_bid_overwrites :
    extractWinnersFromTable none [("Bob", some 100), ("Bob", none)] =
      [("Bob", none)] := by decide

/-- Counterexample to claim C7 as stated: the cleaning strips only one
leading numeric token, so the item text `"100 200 Sword x 1"` leaves the
final item name `"200 Sword"`, which still begins with a numeric token
followed by whitespace. -/
theorem c7_counterexample :
    (extractTableContext tblC7x).itemName = some "200 Sword" ∧
      beginsWithNumericToken "200 Sword" = true := by decide

lemma takeWhile_append_of_all {α : Type} {p : α → Bool} {l1 : List α} (l2 : List α)
    (h : ∀ a ∈ l1, p a = true) : (l1 ++ l2).takeWhile p = l1 ++ l2.takeWhile p := by
  induction l1 with
  | nil => simp
  | cons a t ih =>
    simp [List.takeWhile_cons, h a (by simp), ih (fun x hx => h x (by simp [hx]))]

lemma dropWhile_append_of_all {α : Type} {p : α → Bool} {l1 : List α} (l2 : List α)
    (h : ∀ a ∈ l1, p a = true) : (l1 ++ l2).dropWhile p = l2.dropWhile p := by
  induction l1 with
  | nil => simp
  | cons a t ih =>
    simp [List.dropWhile_cons, h a (by simp), ih (fun x hx => h x (by simp [hx]))]

lemma isSepChar_not_digit {c : Char} (h : isSepChar c = true) : isDigitChar c = false := by
  simp only [isSepChar, isJsSpace, Bool.or_eq_true, decide_eq_true_eq] at h
  rcases h with ((((((h | h) | h) | h) | h) | h) | h) | h <;> subst h <;> decide

/-- Claim C7 (amended): the extractor strips exactly one leading numeric
token.  Whenever the item text after quantity-stripping is one maximal
digit run, one maximal whitespace/dash run and a line-terminator-free
remainder, the cleaned name is exactly the trimmed remainder; and the cited
example `"150 Yelinaks Talisman x 1"` yields item name
`"Yelinaks Talisman"` with quantity 1.  A second stacked numeric token
survives (see the counterexample). -/
theorem c7_single_numeric_token_stripped :
    (∀ (ds seps : List Char) (r0 : Char) (rtail : List Char),
      ds ≠ [] → ds.all isDigitChar = true →
      seps ≠ [] → seps.all isSepChar = true →
      isSepChar r0 = false → (r0 :: rtail).all isDotChar = true →
      cleanLeadingBid (String.mk (ds ++ seps ++ (r0 :: rtail))) =
        trimString (String.mk (r0 :: rtail))) ∧
    ((extractTableContext tblC7).itemName = some "Yelinaks Talisman" ∧
      (extractTableContext tblC7).quantity = some 1) := by
  constructor
  · intro ds seps r0 rtail hds hdsall hseps hsepsall hr0 hdot
    have hdsall' : ∀ c ∈ ds, isDigitChar c = true := by
      simpa [List.all_eq_true] using hdsall
    have hsepsall' : ∀ c ∈ seps, isSepChar c = true := by
      simpa [List.all_eq_true] using hsepsall
    obtain ⟨s0, stail, rfl⟩ : ∃ s0 stail, seps = s0 :: stail := by
      cases seps with
      | nil => exact absurd rfl hseps
      | cons a t => exact ⟨a, t, rfl⟩
    have hs0 : isSepChar s0 = true := hsepsall' s0 (by simp)
    have htake : ((ds ++ (s0 :: stail) ++ (r0 :: rtail)).takeWhile isDigitChar) = ds := by
      rw [List.append_assoc, takeWhile_append_of_all _ hdsall']
      simp [List.takeWhile_cons, isSepChar_not_digit hs0]
    have hdrop : ((ds ++ (s0 :: stail) ++ (r0 :: rtail)).dropWhile isDigitChar) =
        (s0 :: stail) ++ (r0 :: rtail) := by
      rw [List.append_assoc, dropWhile_append_of_all _ hdsall']
      simp [List.dropWhile_cons, isSepChar_not_digit hs0]
    have htakesep : (((s0 :: stail) ++ (r0 :: rtail)).takeWhile isSepChar) = s0 :: stail := by
      rw [takeWhile_append_of_all _ hsepsall']
      simp [List.takeWhile_cons, hr0]
    simp only [cleanLeadingBid, htake, hdrop, htakesep]
    have hdsne : ds.isEmpty = false := by
      cases ds with
      | nil => exact absurd rfl hds
      | cons a t => rfl
    rw [hdsne]
    simp only [Bool.false_eq_true, if_false]
    have hlen : ((s0 :: stail) ++ (r0 :: rtail)).length - 1 =
        (s0 :: stail).length + rtail.length := by
      simp [List.length_append]
      omega
    have hmin : min (s0 :: stail).length (((s0 :: stail) ++ (r0 :: rtail)).length - 1) =
        (s0 :: stail).length := by
      rw [hlen]
      omega
    rw [hmin]
    have hdropm : ((s0 :: stail) ++ (r0 :: rtail)).drop (s0 :: stail).length =
        r0 :: rtail := List.drop_left _ _
    rw [hdropm]
    have hcond : (decide (1 ≤ (s0 :: stail).length) && (r0 :: rtail).all isDotChar) = true := by
      simp [hdot]
    rw [hcond]
    exact if_pos rfl
  · exact ⟨by decide, by decide⟩

/-- Witness for claim C7: the general conjunct applied at the concrete
decomposition `"150" ++ " " ++ "Sword"`, together with the example
conjunct. -/
theorem c7_witness :
    cleanLeadingBid (String.mk (['1', '5', '0'] ++ [' '] ++ ('S' :: "word".data))) =
      trimString (String.mk ('S' :: "word".data)) ∧
    (extractTableContext tblC7).itemName = some "Yelinaks Talisman" :=
  ⟨c7_single_numeric_token_stripped.1 ['1', '5', '0'] [' '] 'S' "word".data
      (by decide) (by decide) (by decide) (by decide) (by decide) (by decide),
    c7_single_numeric_token_stripped.2.1⟩

lemma tableRollOffWinners_subset {inp : TableInput} {w : Bidder}
    (hw : w ∈ tableRollOffWinners inp) :
    ∃ b, tableBidAmount inp = some b ∧ b ≠ 0 ∧ w.bid = some b := by
  unfold tableRollOffWinners at hw
  cases hba : tableBidAmount inp with
  | none => simp only [hba] at hw; simp at hw
  | some b =>
    simp only [hba] at hw
    by_cases hb0 : b = 0
    · rw [if_pos hb0] at hw; simp at hw
    · rw [if_neg hb0, List.mem_filterMap] at hw
      obtain ⟨r, _, hres⟩ := hw
      refine ⟨b, rfl, hb0, ?_⟩
      cases hrw : r.rowWinner with
      | none =>
        simp only [hrw] at hres
        exact Option.noConfusion hres
      | some nm =>
        simp only [hrw] at hres
        by_cases hnm : nm = ""
        · rw [if_pos hnm] at hres; simp at hres
        · rw [if_neg hnm] at hres
          by_cases hbid : rowBidOf r = some b
          · rw [if_pos hbid, Option.some_inj] at hres
            rw [← hres]
          · rw [if_neg hbid] at hres; simp at hres

lemma tableRollOffWinners_ne_truthy {inp : TableInput}
    (h : tableRollOffWinners inp ≠ []) :
    truthyInt (tableBidAmount inp) = true := by
  obtain ⟨w, hw⟩ := List.exists_mem_of_ne_nil _ h
  obtain ⟨b, hb, hb0, _⟩ := tableRollOffWinners_subset hw
  simp [truthyInt, hb, hb0]

lemma length_insertDesc (a : Bidder) (l : List Bidder) :
    (insertDesc a l).length = l.length + 1 := by
  induction l with
  | nil => rfl
  | cons b t ih => by_cases h : bidKey a < bidKey b <;> simp [insertDesc, h, ih]

lemma length_sortBiddersDesc (l : List Bidder) :
    (sortBiddersDesc l).length = l.length := by
  induction l with
  | nil => rfl
  | cons a t ih => simp [sortBiddersDesc, length_insertDesc, ih]

lemma foldl_max_const {b : Int} : ∀ (t : List Bidder), (∀ x ∈ t, bidKey x = b) →
    t.foldl (fun m x => max m (bidKey x)) b = b
  | [], _ => rfl
  | x :: t, h => by
    have hx : bidKey x = b := h x (by simp)
    have hmax : max b (bidKey x) = b := by rw [hx]; exact max_self b
    simp only [List.foldl_cons, hmax]
    exact foldl_max_const t (fun y hy => h y (by simp [hy]))

lemma maxBidVal_const {l : List Bidder} {b : Int} (hne : l ≠ [])
    (h : ∀ w ∈ l, w.bid = some b) : maxBidVal l = b := by
  cases l with
  | nil => exact absurd rfl hne
  | cons w t =>
    have hw : bidKey w = b := by simp [bidKey, h w (by simp)]
    simp only [maxBidVal]
    rw [hw]
    exact foldl_max_const t (fun x hx => by simp [bidKey, h x (by simp [hx])])

lemma foldl_max_attained : ∀ (t : List Bidder) (a : Int),
    t.foldl (fun m x => max m (bidKey x)) a = a ∨
      ∃ w ∈ t, t.foldl (fun m x => max m (bidKey x)) a = bidKey w
  | [], _ => Or.inl rfl
  | x :: t, a => by
    simp only [List.foldl_cons]
    rcases foldl_max_attained t (max a (bidKey x)) with h | ⟨w, hw, hval⟩
    · rcases le_total (bidKey x) a with hle | hle
      · left; rw [h, max_eq_left hle]
      · right; exact ⟨x, by simp, by rw [h, max_eq_right hle]⟩
    · right; exact ⟨w, by simp [hw], hval⟩

lemma maxBidVal_attained {l : List Bidder} (h : l ≠ []) :
    ∃ w ∈ l, bidKey w = maxBidVal l := by
  cases l with
  | nil => exact absurd rfl h
  | cons x t =>
    simp only [maxBidVal]
    rcases foldl_max_attained t (bidKey x) with h1 | ⟨w, hw, hval⟩
    · exact ⟨x, by simp, h1.symm⟩
    · exact ⟨w, by simp [hw], hval.symm⟩

lemma computeActualWinners_rolloff (l : List Bidder) (bid : Option Int)
    (q : Option Nat) (winner : Option String) :
    computeActualWinners true l bid q winner = l := by
  unfold computeActualWinners
  simp

lemma computeActualWinners_length (winner : Option String) {l : List Bidder}
    {bid : Option Int} {q : Nat}
    (hbid : truthyInt bid = true) (hq : 1 ≤ q) (hlen : q ≤ l.length)
    (hbids : ∀ w ∈ l, ∃ b, w.bid = some b) :
    (computeActualWinners false l bid (some q) winner).length = q := by
  have hpos : 0 < l.length := lt_of_lt_of_le hq hlen
  unfold computeActualWinners
  rw [if_neg (by simp)]
  rw [if_pos (by simp [hbid, hpos])]
  by_cases h1q : 1 < q
  · rw [if_pos (by simp [truthyNat, hpos, h1q]; omega)]
    simp [List.length_take, length_sortBiddersDesc]
    omega
  · have hq1 : q = 1 := by omega
    rw [if_neg (by simp [truthyNat]; omega)]
    have hne : l ≠ [] := List.ne_nil_of_length_pos hpos
    obtain ⟨w0, hw0, hkey⟩ := maxBidVal_attained hne
    obtain ⟨b0, hb0⟩ := hbids w0 hw0
    have hb0key : b0 = maxBidVal l := by
      have hbk : bidKey w0 = b0 := by simp [bidKey, hb0]
      rw [← hbk]
      exact hkey
    have hw0max : w0.bid = some (maxBidVal l) := by
      rw [hb0, hb0key]
    have hmem : w0 ∈ l.filter (fun w => decide (w.bid = some (maxBidVal l))) := by
      rw [List.mem_filter]
      exact ⟨hw0, by simp [hw0max]⟩
    have hawpos : 0 < (l.filter (fun w => decide (w.bid = some (maxBidVal l)))).length :=
      List.length_pos.mpr (List.ne_nil_of_mem hmem)
    by_cases h1aw : 1 < (l.filter (fun w => decide (w.bid = some (maxBidVal l)))).length
    · rw [if_pos (by simp [h1aw, hq1])]
      simp [List.length_take]
      omega
    · rw [if_neg (by simp [h1aw])]
      omega

lemma tableIsRollOff_iff {inp : TableInput} (hq : 1 ≤ tableQuantityOf inp) :
    (tableIsRollOff inp = true ↔
      tableQuantityOf inp < (tableRollOffWinners inp).length) := by
  simp only [tableIsRollOff]
  have hq0 : ¬ (tableQuantityOf inp = 0) := by omega
  rw [if_neg hq0]
  simp only [Bool.and_eq_true, decide_eq_true_eq]
  constructor
  · rintro ⟨⟨_, _⟩, h3⟩
    exact h3
  · intro h
    have hlen1 : 1 < (tableRollOffWinners inp).length := by omega
    refine ⟨⟨hlen1, ?_⟩, h⟩
    have hne : tableRollOffWinners inp ≠ [] :=
      List.ne_nil_of_length_pos (by omega)
    have htr := tableRollOffWinners_ne_truthy hne
    simp only [tableRollOffBid]
    rw [if_pos hlen1]
    cases hba : tableBidAmount inp with
    | none => rw [hba] at htr; simp [truthyInt] at htr
    | some b => simp

/-- Claim C4 (amended): for every table-shape context with quantity at
least 1, `isRollOff` is true exactly when the number of recorded bidders at
the headline bid exceeds the quantity (in the table shape the bidder list
is filtered to the headline bid, so these are the top-bid sharers); in
particular, exactly `quantity` bidders at that bid give `isRollOff = false`.
In the tab shape a bidder list with mixed bid values leaves `rollOffBid`
null and `isRollOff` false even when the top-bid sharers exceed the
quantity (see the counterexample). -/
theorem c4_table_rolloff_iff (inp : TableInput) (hq : 1 ≤ tableQuantityOf inp) :
    ((extractTableContext inp).isRollOff = true ↔
      tableQuantityOf inp < (tableRollOffWinners inp).length) := by
  have hiso : (extractTableContext inp).isRollOff = tableIsRollOff inp := rfl
  rw [hiso]
  exact tableIsRollOff_iff hq

/-- Witness for claim C4 at the spec scenario with quantity 2 and rows
Bob 1000, Sue 1000, Amy 800: the equivalence evaluates with both sides
false, i.e. two top-bid sharers on two items are not a roll-off. -/
theorem c4_witness :
    ((extractTableContext tblRollOffQ2).isRollOff = true ↔
      tableQuantityOf tblRollOffQ2 < (tableRollOffWinners tblRollOffQ2).length) :=
  c4_table_rolloff_iff tblRollOffQ2 (by decide)

/-- Counterexample to claim C4 as stated: in the tab shape, with comma
text `"Bob - 1000, Sue - 1000, Amy - 1"` and quantity 1, two bidders share
the top bid 1000 (more than the quantity), yet `isRollOff` is false because
the bidder list mixes bid values and `rollOffBid` stays null. -/
theorem c4_counterexample :
    (extractTimerContextNT tiC4).isRollOff = false ∧
      (extractTimerContextNT tiC4).quantity = some 1 ∧
      (match (extractTimerContextNT tiC4).rollOffWinners with
       | some l => (specTopBidSharers l).length
       | none => 0) = 2 := by decide

lemma timerParsedWinners_bids {inp : TimerInput} {bid : Option Int} {w : Bidder}
    (hw : w ∈ timerParsedWinners inp bid) : ∃ b, w.bid = some b := by
  unfold timerParsedWinners at hw
  rw [List.mem_filterMap] at hw
  obtain ⟨part, _, hres⟩ := hw
  split at hres
  · rename_i w' b hmatch
    rw [Option.some_inj] at hres
    exact ⟨b, by rw [← hres]⟩
  · split at hres
    · rename_i hcond
      rw [Option.some_inj] at hres
      cases bid with
      | none => simp [truthyInt] at hcond
      | some b => exact ⟨b, by rw [← hres]⟩
    · exact Option.noConfusion hres

lemma timerRollOffState_bids {inp : TimerInput} {w : Bidder}
    (hw : w ∈ (timerRollOffState inp).1) : ∃ b, w.bid = some b := by
  unfold timerRollOffState at hw
  split at hw
  · simp only [] at hw
    split at hw
    · split at hw
      · simp at hw
      · split at hw
        · exact timerParsedWinners_bids (by simpa using hw)
        · exact timerParsedWinners_bids (by simpa using hw)
    · simp at hw
  · simp at hw

lemma extractTableContext_actualWinners (inp : TableInput) :
    (extractTableContext inp).actualWinners =
      (if 0 < (computeActualWinners (tableIsRollOff inp) (tableRollOffWinners inp)
          (tableBidAmount inp) (some (tableQuantityOf inp)) inp.winner).length
       then some (computeActualWinners (tableIsRollOff inp) (tableRollOffWinners inp)
          (tableBidAmount inp) (some (tableQuantityOf inp)) inp.winner)
       else none) := rfl

lemma extractTimerContextNT_fields (inp : TimerInput) :
    (extractTimerContextNT inp).quantity = (timerItemScan inp.divTexts (none, none)).2 ∧
    (extractTimerContextNT inp).isRollOff =
      (decide (1 < (timerRollOffState inp).1.length) && (timerRollOffState inp).2.isSome &&
        decide ((match (timerItemScan inp.divTexts (none, none)).2 with
                 | some q => if q = 0 then 1 else q
                 | none => 1) < (timerRollOffState inp).1.length)) ∧
    (extractTimerContextNT inp).actualWinners =
      (if 0 < (computeActualWinners (extractTimerContextNT inp).isRollOff
          (timerRollOffState inp).1 (timerWinnerBid inp).2
          (timerItemScan inp.divTexts (none, none)).2 (timerWinnerBid inp).1).length
       then some (computeActualWinners (extractTimerContextNT inp).isRollOff
          (timerRollOffState inp).1 (timerWinnerBid inp).2
          (timerItemScan inp.divTexts (none, none)).2 (timerWinnerBid inp).1)
       else none) :=
  ⟨rfl, rfl, rfl⟩

/-- Claim C5 (amended): in both shapes, whenever the context carries a
truthy bid amount and the quantity is at least 1, `actualWinners` has
exactly `quantity` entries when `isRollOff` is false and the bidder list
has at least `quantity` entries, and `actualWinners` equals the whole
roll-off participant list (whose size exceeds `quantity`) when `isRollOff`
is true.  Without a truthy bid amount the winner-resolution falls back to
the single headline winner and the count can drop below `quantity` (see
the counterexample). -/
theorem c5_actual_winners_length :
    (∀ inp : TableInput, 1 ≤ tableQuantityOf inp →
      ((extractTableContext inp).isRollOff = true →
        (extractTableContext inp).actualWinners = some (tableRollOffWinners inp) ∧
        tableQuantityOf inp < (tableRollOffWinners inp).length) ∧
      ((extractTableContext inp).isRollOff = false →
        truthyInt (tableBidAmount inp) = true →
        tableQuantityOf inp ≤ (tableRollOffWinners inp).length →
        awLength (extractTableContext inp) = tableQuantityOf inp)) ∧
    (∀ (inp : TimerInput) (q : Nat),
      (extractTimerContextNT inp).quantity = some q → 1 ≤ q →
      ((extractTimerContextNT inp).isRollOff = true →
        (extractTimerContextNT inp).actualWinners = some (timerRollOffState inp).1 ∧
        q < (timerRollOffState inp).1.length) ∧
      ((extractTimerContextNT inp).isRollOff = false →
        truthyInt (timerWinnerBid inp).2 = true →
        q ≤ (timerRollOffState inp).1.length →
        awLength (extractTimerContextNT inp) = q)) := by
  constructor
  · intro inp hq
    have hiso : (extractTableContext inp).isRollOff = tableIsRollOff inp := rfl
    constructor
    · intro hro
      rw [hiso] at hro
      have hlt : tableQuantityOf inp < (tableRollOffWinners inp).length :=
        (tableIsRollOff_iff hq).mp hro
      refine ⟨?_, hlt⟩
      rw [extractTableContext_actualWinners, hro, computeActualWinners_rolloff]
      rw [if_pos (by omega)]
    · intro hro hbid hlen
      rw [hiso] at hro
      have hbids : ∀ w ∈ tableRollOffWinners inp, ∃ b, w.bid = some b := by
        intro w hw
        obtain ⟨b, _, _, hb⟩ := tableRollOffWinners_subset hw
        exact ⟨b, hb⟩
      have hlenq := computeActualWinners_length inp.winner hbid hq hlen hbids
      unfold awLength
      rw [extractTableContext_actualWinners, hro]
      rw [if_pos (by omega)]
      exact hlenq
  · intro inp q hquant hq
    obtain ⟨hqf, hrof, hawf⟩ := extractTimerContextNT_fields inp
    rw [hqf] at hquant
    constructor
    · intro hro
      have hro' := hro
      rw [hrof, hquant] at hro'
      simp only [Bool.and_eq_true, decide_eq_true_eq] at hro'
      obtain ⟨⟨h1, _⟩, h3⟩ := hro'
      have hq0 : ¬ (q = 0) := by omega
      rw [if_neg hq0] at h3
      refine ⟨?_, h3⟩
      rw [hawf, hro, computeActualWinners_rolloff]
      rw [if_pos (by omega)]
    · intro hro hbid hlen
      have hbids : ∀ w ∈ (timerRollOffState inp).1, ∃ b, w.bid = some b :=
        fun w hw => timerRollOffState_bids hw
      have hlenq := computeActualWinners_length (timerWinnerBid inp).1
        hbid hq hlen hbids
      unfold awLength
      rw [hawf, hro, hquant]
      rw [if_pos (by omega)]
      exact hlenq

/-- Witness for claim C5: the table part applied at the quantity-2 spec
scenario and the tab part applied at the three-bidder comma input with
quantity 1. -/
theorem c5_witness :
    awLength (extractTableContext tblRollOffQ2) = tableQuantityOf tblRollOffQ2 ∧
    awLength (extractTimerContextNT tiC4) = 1 :=
  ⟨(c5_actual_winners_length.1 tblRollOffQ2 (by decide)).2 (by decide) (by decide)
      (by decide),
    (c5_actual_winners_length.2 tiC4 1 (by decide) (by decide)).2 (by decide) (by decide)
      (by decide)⟩

/-- Counterexample to claim C5 as stated: the tab-shape context parsed from
`"Bob - 0, Sue - 0"` with item `"Foo x 2"` has two distinct bidders, is not
a roll-off and has quantity 2, yet `actualWinners` has a single entry,
because the falsy bid amount routes the winner resolution to the headline
winner fallback. -/
theorem c5_counterexample :
    (extractTimerContextNT tiC5).isRollOff = false ∧
      (extractTimerContextNT tiC5).quantity = some 2 ∧
      (extractTimerContextNT tiC5).rollOffWinners =
        some [{ winner := "Bob", bid := some 0 }, { winner := "Sue", bid := some 0 }] ∧
      ("Bob" : String) ≠ "Sue" ∧
      awLength (extractTimerContextNT tiC5) = 1 := by decide

lemma noteProgress_alertedTimers (env : Env) (s : TrackerState) (t : Nat) :
    (noteProgress env s t).alertedTimers = s.alertedTimers := by
  unfold noteProgress
  split
  · split <;> rfl
  · rfl

lemma noteProgress_recentCompletedMap (env : Env) (s : TrackerState) (t : Nat) :
    (noteProgress env s t).recentCompletedMap = s.recentCompletedMap := by
  unfold noteProgress
  split
  · split <;> rfl
  · rfl

lemma noteProgress_navigationProtectionActive (env : Env) (s : TrackerState) (t : Nat) :
    (noteProgress env s t).navigationProtectionActive = s.navigationProtectionActive := by
  unfold noteProgress
  split
  · split <;> rfl
  · rfl

lemma contains_cons_self_or {x t : Nat} {l : List Nat} (h : l.contains x = true) :
    (t :: l).contains x = true := by
  rw [List.contains_cons, h, Bool.or_true]

lemma checkTimer_alerted_preserved (env : Env) (s : TrackerState) (t x : Nat)
    (h : s.alertedTimers.contains x = true) :
    (checkTimer env s t).1.alertedTimers.contains x = true := by
  have hnp := noteProgress_alertedTimers env s t
  unfold checkTimer
  split
  · exact h
  split
  · exact h
  split
  · exact h
  simp only []
  split
  · rw [hnp]; exact h
  split
  · split
    · show (t :: (noteProgress env s t).alertedTimers).contains x = true
      rw [hnp]
      exact contains_cons_self_or h
    split
    · show (t :: (noteProgress env s t).alertedTimers).contains x = true
      rw [hnp]
      exact contains_cons_self_or h
    split
    · rw [hnp]; exact h
    split
    · show (t :: (noteProgress env s t).alertedTimers).contains x = true
      rw [hnp]
      exact contains_cons_self_or h
    · show (t :: (noteProgress env s t).alertedTimers).contains x = true
      rw [hnp]
      exact contains_cons_self_or h
  · rw [hnp]; exact h

lemma checkTimer_alerted_skip (env : Env) (s : TrackerState) (t : Nat)
    (h : s.alertedTimers.contains t = true) :
    (checkTimer env s t).2.2 = [] := by
  unfold checkTimer
  split
  · rfl
  · split
    · rfl
    · simp [h]

lemma checkTimer_protected_skip (env : Env) (s : TrackerState) (t : Nat)
    (h : s.navigationProtectionActive = true) :
    (checkTimer env s t).2.2 = [] := by
  unfold checkTimer
  split
  · rfl
  · simp [h]

lemma runChecks_alerted_silent (t : Nat) :
    ∀ (steps : List (Env × Nat)) (s : TrackerState),
      s.alertedTimers.contains t = true →
      ∀ p ∈ (runChecks steps s).2, p.1 = t → p.2 = ([] : List Event) := by
  intro steps
  induction steps with
  | nil =>
    intro s _ p hp
    simp [runChecks] at hp
  | cons step rest ih =>
    obtain ⟨e, u⟩ := step
    intro s h p hp hpt
    simp only [runChecks, List.mem_cons] at hp
    rcases hp with hfirst | htail
    · subst hfirst
      simp only at hpt
      subst hpt
      exact checkTimer_alerted_skip e s _ h
    · exact ih (checkTimer e s u).1 (checkTimer_alerted_preserved e s u t h) p htail hpt

lemma checkTimer_events_cases (env : Env) (s : TrackerState) (t : Nat) :
    (checkTimer env s t).2.2 = [] ∨
    (checkTimer env s t).2.2 = [Event.markAlerted t] ∨
    (∃ sig, (checkTimer env s t).2.2 =
        [Event.markAlerted t, Event.dispatchOutput t sig, Event.recordSig sig] ∧
      (checkTimer env s t).1.alertedTimers.contains t = true) := by
  unfold checkTimer
  split
  · exact Or.inl rfl
  split
  · exact Or.inl rfl
  split
  · exact Or.inl rfl
  simp only []
  split
  · exact Or.inl rfl
  split
  · split
    · exact Or.inr (Or.inl rfl)
    split
    · exact Or.inr (Or.inl rfl)
    split
    · exact Or.inl rfl
    split
    · refine Or.inr (Or.inr ⟨_, rfl, ?_⟩)
      simp [List.contains_cons]
    · exact Or.inr (Or.inl rfl)
  · exact Or.inl rfl

/-- Claim C1: once a handle is in the alerted set, no later check of that
handle ever emits events again (in particular no output dispatch); and a
check that does dispatch emits `markAlerted` strictly before
`dispatchOutput`, with the handle in the alerted set of the resulting
state - the synchronous mark-before-dispatch discipline of content.js
lines 1049-1060. -/
theorem c1_alerted_handle_is_final :
    (∀ (s : TrackerState) (t : Nat), s.alertedTimers.contains t = true →
      ∀ (steps : List (Env × Nat)), ∀ p ∈ (runChecks steps s).2, p.1 = t →
        ∀ sig, Event.dispatchOutput t sig ∉ p.2) ∧
    (∀ (env : Env) (s : TrackerState) (t : Nat) (sig : String),
      Event.dispatchOutput t sig ∈ (checkTimer env s t).2.2 →
      (checkTimer env s t).2.2 =
        [Event.markAlerted t, Event.dispatchOutput t sig, Event.recordSig sig] ∧
      (checkTimer env s t).1.alertedTimers.contains t = true) := by
  constructor
  · intro s t h steps p hp hpt sig
    rw [runChecks_alerted_silent t steps s h p hp hpt]
    simp
  · intro env s t sig h
    rcases checkTimer_events_cases env s t with hc | hc | ⟨sig0, hc, hmem⟩
    · rw [hc] at h; simp at h
    · rw [hc] at h; simp at h
    · rw [hc] at h
      simp only [List.mem_cons, List.mem_singleton] at h
      rcases h with h | h | h
      · exact absurd h (by simp)
      · have : sig = sig0 := by
          injection h with _ h2
        subst this
        exact ⟨hc, hmem⟩
      · rcases h with h | h
        · exact absurd h (by simp)
        · simp at h

/-- Witness for claim C1: applies the trace part to a one-step run on a
state where timer 7 is already alerted, and the ordering part to a check
that fires an alert for timer 7 on a fresh state. -/
theorem c1_witness :
    (∀ sig, Event.dispatchOutput 7 sig ∉ ((7 : Nat), ([] : List Event)).2) ∧
    ((checkTimer envC1 stateFresh 7).2.2 =
        [Event.markAlerted 7, Event.dispatchOutput 7 "sword|bob|100",
          Event.recordSig "sword|bob|100"] ∧
      (checkTimer envC1 stateFresh 7).1.alertedTimers.contains 7 = true) :=
  ⟨fun sig =>
    c1_alerted_handle_is_final.1 stateAlerted7 7 (by decide) [(envC1, 7)]
      (7, ([] : List Event)) (by decide) rfl sig,
    c1_alerted_handle_is_final.2 envC1 stateFresh 7 "sword|bob|100" (by decide)⟩

/-- Claim C2: the signature-deduplication rule suppresses only when the
signature is recent AND the very handle was already alerted; a handle that
has never been alerted is therefore never suppressed by a recently recorded
identical signature - the `dedupSuppressed` exit is unreachable for it
(content.js lines 1034-1047 re-check `alertedTimers.has` after the early
return of lines 990-997). -/
theorem c2_fresh_handle_never_dedup_suppressed (env : Env) (s : TrackerState) (t : Nat)
    (h : s.alertedTimers.contains t = false) :
    (checkTimer env s t).2.1 ≠ Outcome.dedupSuppressed := by
  have hnp := noteProgress_alertedTimers env s t
  unfold checkTimer
  split
  · simp
  split
  · simp
  split
  · simp
  simp only []
  split
  · simp
  split
  · split
    · simp
    split
    · simp
    split
    · rename_i hded
      rw [Bool.and_eq_true] at hded
      rw [hnp, h] at hded
      exact absurd hded.2 (by simp)
    split
    · simp
    · simp
  · simp

/-- Witness for claim C2: a fresh handle checked while its completion
signature is recorded one second earlier (inside the two-minute window) is
still not suppressed by the deduplication rule. -/
theorem c2_witness :
    (checkTimer envC2 stateRecentSig 5).2.1 ≠ Outcome.dedupSuppressed :=
  c2_fresh_handle_never_dedup_suppressed envC2 stateRecentSig 5 (by decide)

lemma assocFind_assocSet_self {β : Type} (m : List (String × β)) (k : String) (v : β) :
    assocFind (assocSet m k v) k = some v := by
  induction m with
  | nil => simp [assocSet, assocFind]
  | cons e t ih =>
    obtain ⟨k0, v0⟩ := e
    by_cases hk : k0 = k
    · simp [assocSet, assocFind, hk]
    · simp [assocSet, assocFind, hk, ih]

lemma assocFind_filter {β : Type} (p : String × β → Bool) :
    ∀ (m : List (String × β)) (k : String) (v : β),
      assocFind m k = some v → p (k, v) = true →
      assocFind (m.filter p) k = some v := by
  intro m
  induction m with
  | nil => intro k v hfind _; simp [assocFind] at hfind
  | cons e t ih =>
    obtain ⟨k0, v0⟩ := e
    intro k v hfind hp
    by_cases hk : k0 = k
    · subst hk
      simp [assocFind] at hfind
      subst hfind
      simp [List.filter_cons, hp, assocFind]
    · simp only [assocFind, if_neg hk] at hfind
      rw [List.filter_cons]
      split
      · simp [assocFind, hk]
        exact ih k v hfind hp
      · exact ih k v hfind hp

lemma assocFind_recordCompleted (m : List (String × Nat)) (now : Nat) (sig : String) :
    assocFind (recordCompleted m now sig) sig = some now := by
  unfold recordCompleted
  simp only []
  split
  · exact assocFind_filter _ _ sig now (assocFind_assocSet_self m sig now)
      (by simp [COMPLETED_SUPPRESS_MS])
  · exact assocFind_assocSet_self m sig now

/-- Claim C3 (amended): a handle found already at width 0 while the
navigation protection window is active never emits output and is added to
the alerted set, on both discovery paths; the completion signature is
recorded on the initial-load scan (and on the visibility-regain rescan,
which runs the same statements), but NOT when the handle is first
discovered by the polling rescan during the window - that path only marks
the handle alerted and leaves the recent-completions map unchanged (see the
counterexample). -/
theorem c3_protection_window_marking :
    (∀ (env : Env) (s : TrackerState) (t : Nat),
      s.navigationProtectionActive = true → env.width t = some 0 →
      s.allTimers.contains t = false →
      ((discoverTimer env s t).alertedTimers.contains t = true ∧
        (discoverTimer env s t).recentCompletedMap = s.recentCompletedMap ∧
        (checkTimer env (discoverTimer env s t) t).2.2 = [])) ∧
    (∀ (env : Env) (s : TrackerState) (t : Nat),
      env.width t = some 0 →
      ((initializeMarkCompleted env s t).alertedTimers.contains t = true ∧
        assocFind (initializeMarkCompleted env s t).recentCompletedMap
          (buildCompletionSignature (env.context t)) = some env.nowMs)) := by
  constructor
  · intro env s t hnav hw hall
    have hstate : discoverTimer env s t =
        { s with allTimers := t :: s.allTimers,
                 alertedTimers := t :: s.alertedTimers } := by
      unfold discoverTimer
      rw [if_neg (by rw [hall]; simp)]
      rw [hw]
      simp only []
      rw [if_pos (by simp [hnav])]
    refine ⟨?_, ?_, ?_⟩
    · rw [hstate]; simp [List.contains_cons]
    · rw [hstate]
    · exact checkTimer_protected_skip env _ t (by rw [hstate]; exact hnav)
  · intro env s t hw
    unfold initializeMarkCompleted
    rw [hw]
    simp only []
    rw [if_pos (by simp)]
    refine ⟨by simp [List.contains_cons], ?_⟩
    exact assocFind_recordCompleted _ env.nowMs _

/-- Witness for claim C3: both parts applied at a concrete protected state
and width-0 environment. -/
theorem c3_witness :
    ((discoverTimer envC3 stateProtected 3).alertedTimers.contains 3 = true ∧
      (discoverTimer envC3 stateProtected 3).recentCompletedMap =
        stateProtected.recentCompletedMap ∧
      (checkTimer envC3 (discoverTimer envC3 stateProtected 3) 3).2.2 = []) ∧
    ((initializeMarkCompleted envC3 stateProtected 4).alertedTimers.contains 4 = true ∧
      assocFind (initializeMarkCompleted envC3 stateProtected 4).recentCompletedMap
        (buildCompletionSignature (envC3.context 4)) = some envC3.nowMs) :=
  ⟨c3_protection_window_marking.1 envC3 stateProtected 3 (by decide) (by decide)
      (by decide),
    c3_protection_window_marking.2 envC3 stateProtected 4 (by decide)⟩

/-- Counterexample to claim C3 as stated: a handle first discovered by the
polling rescan at width 0 during the protection window is marked alerted,
but its completion signature is NOT recorded in the recent-completions map
(the map stays empty), contradicting the claim that the signature is
recorded for every such handle. -/
theorem c3_counterexample :
    (discoverTimer envC3 stateProtected 3).alertedTimers.contains 3 = true ∧
      assocFind (discoverTimer envC3 stateProtected 3).recentCompletedMap
        (buildCompletionSignature (envC3.context 3)) = none := by decide

/-- Claim C9: with quiet hours active, visuals enabled, a no-bid-free
context with a clear single winner, and smart bidding not vetoing, the
alert policy returns true, and the dispatch emits the console visual while
emitting neither the chime nor TTS. -/
theorem c9_quiet_hours_visual_only (st : Settings) (now : Int) (userBids perm : Bool)
    (c : Ctx)
    (hq : isQuietHours st now = true)
    (hv : st.DISABLE_VISUALS = false)
    (hnb : c.noBid = false)
    (hsb : st.SMART_BIDDING = true → st.SOUND_PROFILE = "raider" → userBids = true)
    (hw : truthyStr c.winner = true)
    (hro : c.rollOffWinners = none) :
    shouldAlert st (isQuietHours st now) userBids (some c) = true ∧
    Effect.consoleVisual ∈ showNotificationEffects st (isQuietHours st now) perm (some c) ∧
    Effect.soundChime ∉ showNotificationEffects st (isQuietHours st now) perm (some c) ∧
    Effect.ttsSpeech ∉ showNotificationEffects st (isQuietHours st now) perm (some c) := by
  rw [hq]
  refine ⟨?_, ?_, ?_, ?_⟩
  · unfold shouldAlert
    simp only []
    rw [if_neg (by simp [hnb])]
    by_cases hsmart :
        (st.SMART_BIDDING && decide (st.SOUND_PROFILE = "raider") && !userBids) = true
    · simp only [Bool.and_eq_true, decide_eq_true_eq, Bool.not_eq_true'] at hsmart
      obtain ⟨⟨hs1, hs2⟩, hs3⟩ := hsmart
      rw [hsb hs1 hs2] at hs3
      exact absurd hs3 (by simp)
    · rw [if_neg hsmart]
      simp [hv]
  · simp [showNotificationEffects, hv]
  · simp [showNotificationEffects, playChimeEffects]
  · simp [showNotificationEffects, playChimeEffects]

/-- Witness for claim C9 at concrete quiet-hours settings (22:00 to 08:00,
checked at 23:30) and the clear-winner context. -/
theorem c9_witness :
    shouldAlert settingsQuiet (isQuietHours settingsQuiet 2330) false
        (some ctxClearWinner) = true ∧
      Effect.consoleVisual ∈
        showNotificationEffects settingsQuiet (isQuietHours settingsQuiet 2330) true
          (some ctxClearWinner) ∧
      Effect.soundChime ∉
        showNotificationEffects settingsQuiet (isQuietHours settingsQuiet 2330) true
          (some ctxClearWinner) ∧
      Effect.ttsSpeech ∉
        showNotificationEffects settingsQuiet (isQuietHours settingsQuiet 2330) true
          (some ctxClearWinner) :=
  c9_quiet_hours_visual_only settingsQuiet 2330 false true ctxClearWinner
    (by decide) (by decide) (by decide) (by decide) (by decide) (by decide)

end OpenDkp
